import Mathlib

/-!
Verification of the macro-test repository: a shallow embedding of the two
Rust source files (src/src/lib.rs and src/attributes/src/lib.rs) together
with theorems about the claims of the specification.

The embedding models the fragment of the syn data model that the code
touches: paths are lists of segment identifiers (only the identifiers are
ever inspected or compared), attributes carry a path and their parsed meta
(the code calls parse_meta().unwrap() on the raw tokens; here the parsed
form is stored directly), items carry their kind tag, attribute list and
the token text of the remainder of the declaration, and token streams are
lists of tokens whose to_string joins them with single spaces.
Panics are modelled as Except.error with the panic message.
-/

namespace MacroTest

/-- A syn::Path, reduced to the list of its segment identifiers: the code
only ever reads `segments.last().ident`. -/
abbrev Path := List String

/-- A syn::NestedMeta argument of an attribute, kept as its token text. -/
abbrev NestedMeta := String

/-- syn::Meta: the parsed shape of an attribute: a bare path `#[foo]`, a
list `#[foo(a, b)]`, or a name-value `#[foo = "x"]`. -/
inductive Meta where
  | path
  | list (nested : List NestedMeta)
  | nameValue (lit : String)
deriving DecidableEq, Repr

/-- A syn::Attribute: its path and its parsed meta. -/
structure Attribute where
  path : Path
  meta : Meta
deriving DecidableEq, Repr

/-- The kind tag of a syn::Item: the sixteen kinds whose attributes the
assertion macro can extract, plus Verbatim for the wildcard arm that
panics with "Could not extract attributes". -/
inductive ItemKind where
  | constItem
  | enumItem
  | externCrate
  | fnItem
  | foreignMod
  | implItem
  | macroItem
  | macro2Item
  | modItem
  | staticItem
  | structItem
  | traitItem
  | traitAlias
  | typeItem
  | unionItem
  | useItem
  | verbatim
deriving DecidableEq, Repr

/-- A syn::Item: its kind tag, its outer attributes, and the token text of
the rest of the declaration (everything after the attributes). -/
structure Item where
  kind : ItemKind
  attrs : List Attribute
  rest : List String
deriving DecidableEq, Repr

/-- The `match &mut item` block of the assertion macro: every supported
item kind exposes its attribute list; the wildcard arm panics with
"Could not extract attributes". -/
def attrs_of (item : Item) : Except String (List Attribute) :=
  match item.kind with
  | .constItem => .ok item.attrs
  | .enumItem => .ok item.attrs
  | .externCrate => .ok item.attrs
  | .fnItem => .ok item.attrs
  | .foreignMod => .ok item.attrs
  | .implItem => .ok item.attrs
  | .macroItem => .ok item.attrs
  | .macro2Item => .ok item.attrs
  | .modItem => .ok item.attrs
  | .staticItem => .ok item.attrs
  | .structItem => .ok item.attrs
  | .traitItem => .ok item.attrs
  | .traitAlias => .ok item.attrs
  | .typeItem => .ok item.attrs
  | .unionItem => .ok item.attrs
  | .useItem => .ok item.attrs
  | .verbatim => .error "Could not extract attributes"

/-- `path_to_name` of the assertion macro: the identifier of the last path
segment; panics when the path has no segments. -/
def path_to_name (p : Path) : Except String String :=
  match p.getLast? with
  | some seg => .ok seg
  | none => .error "The given path was not an identifier."

/-- `attribute_has_ident` of the assertion macro: the attribute path's
last-segment name compared with the attribute identifier under test. -/
def attribute_has_ident (a : Attribute) (i : String) : Except String Bool := do
  let name ← path_to_name a.path
  pure (name == i)

/-- The `attributes.iter().enumerate().find(...)` step: the index of the
first attribute matching the identifier, propagating the panic of
`attribute_has_ident` on a segmentless path. -/
def find_attribute_index : List Attribute → String → Except String (Option Nat)
  | [], _ => .ok none
  | a :: rest, i => do
    let b ← attribute_has_ident a i
    if b then
      pure (some 0)
    else do
      let r ← find_attribute_index rest i
      pure (r.map (· + 1))

/-- The attribute-extraction block of the assertion macro: find the first
matching attribute (panicking with "Could not find expected attribute"
when there is none) and remove it from the item; `Vec::remove` panics on
an out-of-bounds index. -/
def extract_attribute (item : Item) (i : String) :
    Except String (Attribute × Item) := do
  let attrs ← attrs_of item
  let idx? ← find_attribute_index attrs i
  match idx? with
  | none => .error "Could not find expected attribute"
  | some idx =>
    match attrs[idx]? with
    | some a => pure (a, { item with attrs := attrs.eraseIdx idx })
    | none => .error "removal index out of bounds"

/-- `attribute.parse_meta()`: the attribute's meta (stored parsed here). -/
def parse_meta (a : Attribute) : Meta := a.meta

/-- The `attr_args` conversion of the assertion macro: the nested
arguments of a list-form meta, in order; an empty vector otherwise. -/
def attr_args (a : Attribute) : List NestedMeta :=
  match parse_meta a with
  | .list nested => nested
  | _ => []

/-- Serialization of a path: its segments separated by `::`. -/
def path_tokens (p : Path) : List String :=
  List.intersperse "::" p

/-- Serialization of the argument part of an attribute after its path. -/
def meta_arg_tokens : Meta → List String
  | .path => []
  | .list nested => "(" :: List.intersperse "," nested ++ [")"]
  | .nameValue lit => ["=", lit]

/-- Serialization of an attribute: `#[path...args]`. -/
def attr_tokens (a : Attribute) : List String :=
  "#" :: "[" :: path_tokens a.path ++ meta_arg_tokens a.meta ++ ["]"]

/-- Serialization of an item (`quote! { #item }`): its outer attributes
followed by the rest of the declaration. -/
def item_tokens (item : Item) : List String :=
  (item.attrs.map attr_tokens).flatten ++ item.rest

/-- TokenStream::to_string: the tokens joined by single spaces. -/
def ts_to_string (ts : List String) : String :=
  String.intercalate " " ts

/-- `remove_whitespace` of the assertion macro: drop every whitespace
character of the string. -/
def remove_whitespace (s : String) : String :=
  ⟨s.data.filter (fun c => !c.isWhitespace)⟩

/-- The body of assert_attribute_implementation_as_expected!: extract the
attribute under test from the item, convert it to AttributeArgs, run the
implementation function on the stripped item's token stream, and
assert_eq the whitespace-free serializations; `assertion failed` models
the assert_eq panic. -/
def assert_attribute_implementation_as_expected
    (f : List NestedMeta → List String → List String)
    (attr_ident : String) (item : Item) (expected_ts : List String) :
    Except String Unit := do
  let (a, stripped) ← extract_attribute item attr_ident
  let args := attr_args a
  let implementation_ts := f args (item_tokens stripped)
  if remove_whitespace (ts_to_string implementation_ts)
      == remove_whitespace (ts_to_string expected_ts) then
    pure ()
  else
    .error "assertion failed"

/-!
The attributes crate (src/attributes/src/lib.rs): the signature check and
the code generation of the proc_macro_attribute2 attribute.
-/

/-- A syn::Type, reduced to the shapes the signature check distinguishes:
a path type (kept as its segment identifiers), and representative
non-path shapes (reference and tuple) for the wildcard arm. -/
inductive Ty where
  | path (segments : List String)
  | reference (inner : Ty)
  | tuple (elems : List Ty)

/-- A syn::FnArg: a self receiver, or a typed pattern `pat : ty`. -/
inductive FnArg where
  | receiver
  | typed (pat : String) (ty : Ty)

/-- A syn::ReturnType: the default (no arrow), or `-> ty`. -/
inductive ReturnType where
  | default
  | type (ty : Ty)

/-- A syn::Signature, reduced to what the code reads: the function name,
the inputs and the output. -/
structure Signature where
  ident : String
  inputs : List FnArg
  output : ReturnType

/-- A syn::ItemFn, reduced to its signature and the token text of its
body block. -/
structure ItemFn where
  sig : Signature
  block : List String

/-- `argument_of_expected_type`: a typed argument whose type is a path
type whose last segment's identifier equals the expected type name;
anything else fails. -/
def argument_of_expected_type (input : FnArg) (expected_type_name : String) : Bool :=
  match input with
  | .typed _ ty =>
    match ty with
    | .path segments =>
      ((segments.getLast?.map (fun ident => ident == expected_type_name)).getD false)
    | _ => false
  | _ => false

/-- `output_of_expected_type`: a `->` return whose type is a path type
whose last segment's identifier equals "TokenStream2". -/
def output_of_expected_type (output : ReturnType) : Bool :=
  match output with
  | .type ty =>
    match ty with
    | .path segments =>
      ((segments.getLast?.map (fun ident => ident == "TokenStream2")).getD false)
    | _ => false
  | .default => false

/-- `signature_as_expected`: exactly two inputs, the first of expected
type AttributeArgs, the second of expected type TokenStream2, and an
output of expected type TokenStream2. -/
def signature_as_expected (sig : Signature) : Bool :=
  match sig.inputs with
  | [first, second] =>
    argument_of_expected_type first "AttributeArgs"
      && argument_of_expected_type second "TokenStream2"
      && output_of_expected_type sig.output
  | _ => false

mutual

/-- Serialization of a type. -/
def ty_tokens : Ty → List String
  | .path segments => List.intersperse "::" segments
  | .reference inner => "&" :: ty_tokens inner
  | .tuple elems => "(" :: ty_list_tokens elems ++ [")"]

/-- Serialization of a comma-separated list of types. -/
def ty_list_tokens : List Ty → List String
  | [] => []
  | [t] => ty_tokens t
  | t :: rest => ty_tokens t ++ "," :: ty_list_tokens rest

end

/-- Serialization of one function argument. -/
def fn_arg_tokens : FnArg → List String
  | .receiver => ["self"]
  | .typed pat ty => pat :: ":" :: ty_tokens ty

/-- Serialization of the input list (`#params`). -/
def params_tokens (inputs : List FnArg) : List String :=
  (List.intersperse [","] (inputs.map fn_arg_tokens)).flatten

/-- Serialization of the return type (`#output`). -/
def output_tokens : ReturnType → List String
  | .default => []
  | .type ty => "->" :: ty_tokens ty

/-- `implement`: panic when the signature is not as expected, otherwise
emit the quote! block: the #[proc_macro_attribute] entry-point function
delegating to `implementation`, followed by the public `implementation`
module holding the original function. -/
def implement (item_func : ItemFn) : Except String (List String) :=
  if !signature_as_expected item_func.sig then
    .error "testable_proc_macro_attribute is only applicable on functions of type (AttributeArgs, TokenStream2) -> TokenStream2"
  else
    .ok (
      [ "#", "[", "proc_macro_attribute", "]",
        "pub", "fn", item_func.sig.ident, "(",
        "attributes", ":", "proc_macro", "::", "TokenStream", ",",
        "item", ":", "proc_macro", "::", "TokenStream", ")",
        "->", "proc_macro", "::", "TokenStream", "\x7b",
        "implementation", "::", item_func.sig.ident, "(",
        "syn", "::", "parse_macro_input", "!", "(",
        "attributes", "as", "AttributeArgs", ")", ",",
        "item", ".", "into", "(", ")", ")",
        ".", "into", "(", ")", "\x7d" ]
      ++ [ "pub", "mod", "implementation", "\x7b",
        "use", "super", "::", "*", ";",
        "pub", "fn", item_func.sig.ident, "(" ]
      ++ params_tokens item_func.sig.inputs
      ++ [")"]
      ++ output_tokens item_func.sig.output
      ++ ["\x7b"]
      ++ item_func.block
      ++ ["\x7d", "\x7d"])

/-- The entry-point part of the quote! output of `implement`: a
#[proc_macro_attribute] function of the given name, from
proc_macro::TokenStream pair to proc_macro::TokenStream, whose body
delegates to `implementation::name`. -/
def entry_point_tokens (ident : String) : List String :=
  [ "#", "[", "proc_macro_attribute", "]",
    "pub", "fn", ident, "(",
    "attributes", ":", "proc_macro", "::", "TokenStream", ",",
    "item", ":", "proc_macro", "::", "TokenStream", ")",
    "->", "proc_macro", "::", "TokenStream", "\x7b",
    "implementation", "::", ident, "(",
    "syn", "::", "parse_macro_input", "!", "(",
    "attributes", "as", "AttributeArgs", ")", ",",
    "item", ".", "into", "(", ")", ")",
    ".", "into", "(", ")", "\x7d" ]

/-- The implementation-module part of the quote! output of `implement`:
a public module `implementation` holding a public function with the
given name, parameter tokens, return tokens and body tokens. -/
def implementation_module_tokens
    (ident : String) (params output block : List String) : List String :=
  [ "pub", "mod", "implementation", "\x7b",
    "use", "super", "::", "*", ";",
    "pub", "fn", ident, "(" ]
  ++ params ++ [")"] ++ output ++ ["\x7b"] ++ block ++ ["\x7d", "\x7d"]

/-- Written from the claim wording, for comparison with the code: a type
is "named" n when it is a path type whose final segment is n. -/
def spec_type_named (t : Ty) (n : String) : Prop :=
  ∃ segs, t = Ty.path segs ∧ segs.getLast? = some n

/-- Written from the claim wording, for comparison with the code: the
required shape of a wrapped function's signature: exactly two parameters
whose types are named AttributeArgs and TokenStream2, in that order, and
a return type named TokenStream2. -/
def spec_expected_shape (sig : Signature) : Prop :=
  (∃ p1 t1 p2 t2,
      sig.inputs = [FnArg.typed p1 t1, FnArg.typed p2 t2] ∧
      spec_type_named t1 "AttributeArgs" ∧
      spec_type_named t2 "TokenStream2") ∧
  (∃ t3, sig.output = ReturnType.type t3 ∧ spec_type_named t3 "TokenStream2")

/-!
Helper lemmas about the attribute-extraction step.
-/

/-- Every supported item kind yields its attribute list. -/
theorem attrs_of_ok (item : Item) (hk : item.kind ≠ ItemKind.verbatim) :
    attrs_of item = .ok item.attrs := by
  cases h : item.kind <;> simp_all [attrs_of]

/-- A non-matching attribute with a nonempty path lets the search go on. -/
theorem attribute_has_ident_false {b : Attribute} {i l : String}
    (hl : b.path.getLast? = some l) (hne : l ≠ i) :
    attribute_has_ident b i = .ok false := by
  simp [attribute_has_ident, path_to_name, hl, hne, bind, Except.bind,
    pure, Except.pure, beq_eq_false_iff_ne]

/-- A matching attribute is detected. -/
theorem attribute_has_ident_true {a : Attribute} {i : String}
    (ha : a.path.getLast? = some i) :
    attribute_has_ident a i = .ok true := by
  simp [attribute_has_ident, path_to_name, ha, bind, Except.bind,
    pure, Except.pure]

/-- The search finds the first matching attribute at index `pre.length`
when every earlier attribute has a non-matching nonempty path. -/
theorem find_attribute_index_decomp (i : String) :
    ∀ (pre : List Attribute) (a : Attribute) (post : List Attribute),
    (∀ b ∈ pre, ∃ l, b.path.getLast? = some l ∧ l ≠ i) →
    a.path.getLast? = some i →
    find_attribute_index (pre ++ a :: post) i = .ok (some pre.length) := by
  intro pre
  induction pre with
  | nil =>
    intro a post _ ha
    simp [find_attribute_index, attribute_has_ident_true ha, bind, Except.bind,
      pure, Except.pure]
  | cons b rest ih =>
    intro a post hpre ha
    obtain ⟨l, hl, hne⟩ := hpre b (by simp)
    have hrest : ∀ c ∈ rest, ∃ l, c.path.getLast? = some l ∧ l ≠ i := by
      intro c hc
      exact hpre c (by simp [hc])
    have := ih a post hrest ha
    simp [find_attribute_index, attribute_has_ident_false hl hne,
      bind, Except.bind, this, pure, Except.pure]

/-- Removing the element at the length of the prefix drops exactly it. -/
theorem eraseIdx_append_cons {α : Type} :
    ∀ (pre : List α) (a : α) (post : List α),
    (pre ++ a :: post).eraseIdx pre.length = pre ++ post := by
  intro pre
  induction pre with
  | nil => intro a post; simp [List.eraseIdx]
  | cons b rest ih => intro a post; simp [List.eraseIdx, ih a post]

/-- Indexing at the length of the prefix yields the middle element. -/
theorem getElem?_append_cons {α : Type} :
    ∀ (pre : List α) (a : α) (post : List α),
    (pre ++ a :: post)[pre.length]? = some a := by
  intro pre a post
  rw [List.getElem?_append_right (Nat.le_refl _)]
  simp

/-- The full extraction step on a supported item whose attribute list
splits as `pre ++ a :: post` with `a` the first match: it returns `a`
with the item whose attributes are `pre ++ post`, kind and rest
untouched. -/
theorem extract_attribute_decomp (item : Item) (pre post : List Attribute)
    (a : Attribute) (i : String)
    (hk : item.kind ≠ ItemKind.verbatim)
    (hattrs : item.attrs = pre ++ a :: post)
    (hpre : ∀ b ∈ pre, ∃ l, b.path.getLast? = some l ∧ l ≠ i)
    (ha : a.path.getLast? = some i) :
    extract_attribute item i =
      .ok (a, { item with attrs := pre ++ post }) := by
  have h1 := attrs_of_ok item hk
  have h2 := find_attribute_index_decomp i pre a post hpre ha
  simp only [extract_attribute, h1, hattrs, h2, bind, Except.bind,
    getElem?_append_cons, eraseIdx_append_cons, pure, Except.pure]

/-- With no matching attribute (all paths nonempty), the search reports
none. -/
theorem find_attribute_index_none (i : String) :
    ∀ attrs : List Attribute,
    (∀ b ∈ attrs, ∃ l, b.path.getLast? = some l ∧ l ≠ i) →
    find_attribute_index attrs i = .ok none := by
  intro attrs
  induction attrs with
  | nil => intro _; simp [find_attribute_index]
  | cons b rest ih =>
    intro h
    obtain ⟨l, hl, hne⟩ := h b (by simp)
    have hrest := ih (fun c hc => h c (by simp [hc]))
    simp [find_attribute_index, attribute_has_ident_false hl hne,
      bind, Except.bind, hrest, pure, Except.pure]

/-- With at least one matching attribute and all paths nonempty, the
search succeeds with an in-bounds index. -/
theorem find_attribute_index_some (i : String) :
    ∀ attrs : List Attribute,
    (∀ b ∈ attrs, b.path ≠ []) →
    (∃ a ∈ attrs, a.path.getLast? = some i) →
    ∃ idx, find_attribute_index attrs i = .ok (some idx) ∧ idx < attrs.length := by
  intro attrs
  induction attrs with
  | nil => intro _ hex; simp at hex
  | cons b rest ih =>
    intro hne hex
    have hb : b.path ≠ [] := hne b (by simp)
    obtain ⟨l, hl⟩ : ∃ l, b.path.getLast? = some l := by
      have := List.getLast?_isSome.mpr hb
      exact Option.isSome_iff_exists.mp this
    by_cases hli : l = i
    · refine ⟨0, ?_, by simp⟩
      subst hli
      simp [find_attribute_index, attribute_has_ident_true hl,
        bind, Except.bind, pure, Except.pure]
    · have hrest : ∃ a ∈ rest, a.path.getLast? = some i := by
        obtain ⟨a, hmem, hai⟩ := hex
        rcases List.mem_cons.mp hmem with rfl | hmem2
        · rw [hl] at hai
          exact absurd (Option.some.inj hai) hli
        · exact ⟨a, hmem2, hai⟩
      obtain ⟨idx, hfind, hlt⟩ := ih (fun c hc => hne c (by simp [hc])) hrest
      refine ⟨idx + 1, ?_, by simpa using Nat.succ_lt_succ hlt⟩
      simp [find_attribute_index, attribute_has_ident_false hl hli,
        bind, Except.bind, hfind, pure, Except.pure]

/-- On a supported item with nonempty attribute paths and at least one
match, extraction succeeds. -/
theorem extract_attribute_ok (item : Item) (i : String)
    (hk : item.kind ≠ ItemKind.verbatim)
    (hne : ∀ b ∈ item.attrs, b.path ≠ [])
    (hex : ∃ a ∈ item.attrs, a.path.getLast? = some i) :
    ∃ r, extract_attribute item i = .ok r := by
  obtain ⟨idx, hfind, hlt⟩ := find_attribute_index_some i item.attrs hne hex
  have hget : item.attrs[idx]? = some item.attrs[idx] :=
    List.getElem?_eq_getElem hlt
  refine ⟨(item.attrs[idx], { item with attrs := item.attrs.eraseIdx idx }), ?_⟩
  simp only [extract_attribute, attrs_of_ok item hk, hfind, bind, Except.bind,
    hget, pure, Except.pure]

/-- On a supported item with no matching attribute (all paths nonempty),
extraction panics with "Could not find expected attribute". -/
theorem extract_attribute_not_found (item : Item) (i : String)
    (hk : item.kind ≠ ItemKind.verbatim)
    (hno : ∀ b ∈ item.attrs, ∃ l, b.path.getLast? = some l ∧ l ≠ i) :
    extract_attribute item i = .error "Could not find expected attribute" := by
  simp only [extract_attribute, attrs_of_ok item hk,
    find_attribute_index_none i item.attrs hno, bind, Except.bind]

/-- Unfolding of the assertion body once extraction has succeeded: the
implementation function is applied to the converted arguments and the
stripped item's token stream, and the whitespace-free serializations are
compared. -/
theorem assert_of_extract_ok
    (f : List NestedMeta → List String → List String)
    (i : String) (item : Item) (expected : List String)
    (a : Attribute) (stripped : Item)
    (h : extract_attribute item i = .ok (a, stripped)) :
    assert_attribute_implementation_as_expected f i item expected =
      (if remove_whitespace (ts_to_string (f (attr_args a) (item_tokens stripped)))
          == remove_whitespace (ts_to_string expected)
        then .ok () else .error "assertion failed") := by
  simp only [assert_attribute_implementation_as_expected, h, bind, Except.bind,
    pure, Except.pure]

/-- The assertion body propagates a panic of the extraction step. -/
theorem assert_of_extract_error
    (f : List NestedMeta → List String → List String)
    (i : String) (item : Item) (expected : List String) (e : String)
    (h : extract_attribute item i = .error e) :
    assert_attribute_implementation_as_expected f i item expected = .error e := by
  simp only [assert_attribute_implementation_as_expected, h, bind, Except.bind]

/-!
Claim theorems.
-/

/-- C7: an annotation matches the attribute under test exactly when the
last segment of its path equals the attribute's identifier; any leading
path segments are ignored. -/
theorem attribute_match_compares_last_path_segment
    (m : Meta) (pre : List String) (s i : String) :
    attribute_has_ident ⟨pre ++ [s], m⟩ i = .ok (s == i) := by
  simp [attribute_has_ident, path_to_name, List.getLast?_concat,
    bind, Except.bind, pure, Except.pure]

/-- C8: the signature check of proc_macro_attribute2 inspects only the
identifier of the last segment of a parameter's or the return's type
path, compared as a string with the expected name; non-path types
(references, tuples), a self receiver and a default return type always
fail. -/
theorem type_check_inspects_last_segment_ident_only :
    (∀ (pat : String) (pre : List String) (lastSeg ex : String),
      argument_of_expected_type (FnArg.typed pat (Ty.path (pre ++ [lastSeg]))) ex
        = (lastSeg == ex)) ∧
    (∀ (pat : String) (t : Ty) (ex : String),
      argument_of_expected_type (FnArg.typed pat (Ty.reference t)) ex = false) ∧
    (∀ (pat : String) (ts : List Ty) (ex : String),
      argument_of_expected_type (FnArg.typed pat (Ty.tuple ts)) ex = false) ∧
    (∀ ex : String, argument_of_expected_type FnArg.receiver ex = false) ∧
    (∀ (pre : List String) (lastSeg : String),
      output_of_expected_type (ReturnType.type (Ty.path (pre ++ [lastSeg])))
        = (lastSeg == "TokenStream2")) ∧
    (∀ t : Ty, output_of_expected_type (ReturnType.type (Ty.reference t)) = false) ∧
    (∀ ts : List Ty, output_of_expected_type (ReturnType.type (Ty.tuple ts)) = false) ∧
    output_of_expected_type ReturnType.default = false := by
  refine ⟨?_, ?_, ?_, ?_, ?_, ?_, ?_, ?_⟩ <;>
    simp [argument_of_expected_type, output_of_expected_type, List.getLast?_concat]

/-- C9: the conversion of the matched attribute to AttributeArgs yields
the empty list for a bare-path or name-value meta, and exactly the nested
arguments, in order, for a list-form meta. -/
theorem attr_args_of_non_list_meta_is_empty :
    (∀ p : Path, attr_args ⟨p, Meta.path⟩ = []) ∧
    (∀ (p : Path) (lit : String), attr_args ⟨p, Meta.nameValue lit⟩ = []) ∧
    (∀ (p : Path) (nested : List NestedMeta), attr_args ⟨p, Meta.list nested⟩ = nested) :=
  ⟨fun _ => rfl, fun _ _ => rfl, fun _ _ => rfl⟩

/-- C1: with an identity rewrite function, the assertion on a declaration
carrying a matching annotation succeeds exactly when the whitespace-free
serialization of the expected block equals the whitespace-free
serialization of the declaration with that (first matching) annotation
removed; in particular it succeeds when the expected block is the
declaration without the annotation. -/
theorem identity_rewrite_succeeds_iff_expected_matches_stripped
    (item : Item) (pre post : List Attribute) (a : Attribute)
    (i : String) (expected : List String)
    (hk : item.kind ≠ ItemKind.verbatim)
    (hattrs : item.attrs = pre ++ a :: post)
    (hpre : ∀ b ∈ pre, ∃ l, b.path.getLast? = some l ∧ l ≠ i)
    (ha : a.path.getLast? = some i) :
    (assert_attribute_implementation_as_expected (fun _ ts => ts) i item expected
        = .ok () ↔
      remove_whitespace (ts_to_string expected) =
        remove_whitespace (ts_to_string
          (item_tokens { item with attrs := pre ++ post }))) ∧
    assert_attribute_implementation_as_expected (fun _ ts => ts) i item
      (item_tokens { item with attrs := pre ++ post }) = .ok () := by
  have hex := extract_attribute_decomp item pre post a i hk hattrs hpre ha
  have h1 := assert_of_extract_ok (fun _ ts => ts) i item expected a
    { item with attrs := pre ++ post } hex
  have h2 := assert_of_extract_ok (fun _ ts => ts) i item
    (item_tokens { item with attrs := pre ++ post }) a
    { item with attrs := pre ++ post } hex
  constructor
  · rw [h1]
    by_cases hc : remove_whitespace
        (ts_to_string (item_tokens { item with attrs := pre ++ post })) =
        remove_whitespace (ts_to_string expected)
    · simp [hc, eq_comm]
    · simp [hc]
      exact fun h => hc h.symm
  · rw [h2]
    simp

/-- C2: once the annotation has been extracted, the assertion judges the
produced and expected token streams by their string serializations with
every whitespace character removed: it panics with an assertion failure
exactly when the two stripped strings differ, and succeeds exactly when
they are equal. -/
theorem assert_panics_iff_whitespace_stripped_strings_differ
    (f : List NestedMeta → List String → List String)
    (i : String) (item : Item) (expected : List String)
    (a : Attribute) (stripped : Item)
    (h : extract_attribute item i = .ok (a, stripped)) :
    (assert_attribute_implementation_as_expected f i item expected
        = .error "assertion failed" ↔
      remove_whitespace (ts_to_string (f (attr_args a) (item_tokens stripped))) ≠
        remove_whitespace (ts_to_string expected)) ∧
    (assert_attribute_implementation_as_expected f i item expected = .ok () ↔
      remove_whitespace (ts_to_string (f (attr_args a) (item_tokens stripped))) =
        remove_whitespace (ts_to_string expected)) := by
  rw [assert_of_extract_ok f i item expected a stripped h]
  by_cases hc : remove_whitespace (ts_to_string (f (attr_args a) (item_tokens stripped))) =
      remove_whitespace (ts_to_string expected) <;> simp [hc]

/-- C3: on a declaration whose first matching annotation is `a`, the
assertion invokes the rewrite function with the converted annotation
arguments as first argument and the token stream of the declaration with
`a` removed as second argument, then compares whitespace-free
serializations. -/
theorem rewrite_function_receives_args_and_stripped_item
    (f : List NestedMeta → List String → List String)
    (i : String) (item : Item) (pre post : List Attribute)
    (a : Attribute) (expected : List String)
    (hk : item.kind ≠ ItemKind.verbatim)
    (hattrs : item.attrs = pre ++ a :: post)
    (hpre : ∀ b ∈ pre, ∃ l, b.path.getLast? = some l ∧ l ≠ i)
    (ha : a.path.getLast? = some i) :
    assert_attribute_implementation_as_expected f i item expected =
      (if remove_whitespace (ts_to_string
            (f (attr_args a) (item_tokens { item with attrs := pre ++ post })))
          == remove_whitespace (ts_to_string expected)
        then .ok () else .error "assertion failed") :=
  assert_of_extract_ok f i item expected a { item with attrs := pre ++ post }
    (extract_attribute_decomp item pre post a i hk hattrs hpre ha)

/-- C4: on a supported declaration whose annotations all have nonempty
paths, the assertion panics with "Could not find expected attribute"
when no annotation's name matches the attribute under test, and the
annotation-lookup step succeeds (does not panic) as soon as at least one
matching annotation exists. -/
theorem lookup_panics_iff_no_matching_attribute
    (item : Item) (i : String)
    (hk : item.kind ≠ ItemKind.verbatim)
    (hne : ∀ b ∈ item.attrs, b.path ≠ []) :
    ((∀ b ∈ item.attrs, ∃ l, b.path.getLast? = some l ∧ l ≠ i) →
      ∀ (f : List NestedMeta → List String → List String)
        (expected : List String),
        assert_attribute_implementation_as_expected f i item expected =
          .error "Could not find expected attribute") ∧
    ((∃ a ∈ item.attrs, a.path.getLast? = some i) →
      ∃ r, extract_attribute item i = .ok r) := by
  constructor
  · intro hno f expected
    exact assert_of_extract_error f i item expected _
      (extract_attribute_not_found item i hk hno)
  · intro hex
    exact extract_attribute_ok item i hk hne hex

/-- C10: extraction removes exactly the first annotation whose name
matches: the result is the matched annotation together with the item
whose attribute list lost only that one entry, while its kind, its other
annotations (later matching ones included) and the rest of the
declaration are unchanged. -/
theorem extract_removes_exactly_first_matching_attribute
    (item : Item) (pre post : List Attribute) (a : Attribute) (i : String)
    (hk : item.kind ≠ ItemKind.verbatim)
    (hattrs : item.attrs = pre ++ a :: post)
    (hpre : ∀ b ∈ pre, ∃ l, b.path.getLast? = some l ∧ l ≠ i)
    (ha : a.path.getLast? = some i) :
    extract_attribute item i =
      .ok (a, { kind := item.kind, attrs := pre ++ post, rest := item.rest }) :=
  extract_attribute_decomp item pre post a i hk hattrs hpre ha

/-- The last-segment boolean test holds exactly when the last segment is
the expected name. -/
theorem lastSegmentCheck_iff (segs : List String) (ex : String) :
    ((segs.getLast?.map (fun ident => ident == ex)).getD false) = true ↔
      segs.getLast? = some ex := by
  cases hl : segs.getLast? <;> simp [hl]

/-- The argument check holds exactly for a typed argument whose type is
named as expected. -/
theorem argument_of_expected_type_iff (input : FnArg) (ex : String) :
    argument_of_expected_type input ex = true ↔
      ∃ pat t, input = FnArg.typed pat t ∧ spec_type_named t ex := by
  cases input with
  | receiver => simp [argument_of_expected_type, spec_type_named]
  | typed pat t =>
    cases t with
    | path segs =>
      simp only [argument_of_expected_type, spec_type_named, lastSegmentCheck_iff,
        FnArg.typed.injEq]
      constructor
      · intro h
        exact ⟨pat, Ty.path segs, ⟨rfl, rfl⟩, segs, rfl, h⟩
      · rintro ⟨pat2, t, ⟨-, rfl⟩, segs2, ht, h⟩
        injection ht with h2
        subst h2
        exact h
    | reference t2 => simp [argument_of_expected_type, spec_type_named]
    | tuple ts => simp [argument_of_expected_type, spec_type_named]

/-- The output check holds exactly for a `->` return whose type is named
TokenStream2. -/
theorem output_of_expected_type_iff (output : ReturnType) :
    output_of_expected_type output = true ↔
      ∃ t, output = ReturnType.type t ∧ spec_type_named t "TokenStream2" := by
  cases output with
  | default => simp [output_of_expected_type]
  | type t =>
    cases t with
    | path segs =>
      simp [output_of_expected_type, spec_type_named, lastSegmentCheck_iff]
    | reference t2 => simp [output_of_expected_type, spec_type_named]
    | tuple ts => simp [output_of_expected_type, spec_type_named]

/-- The boolean signature check agrees with the claim's description of
the required shape. -/
theorem signature_as_expected_iff (sig : Signature) :
    signature_as_expected sig = true ↔ spec_expected_shape sig := by
  obtain ⟨id, inputs, out⟩ := sig
  cases inputs with
  | nil => simp [signature_as_expected, spec_expected_shape]
  | cons x tl =>
    cases tl with
    | nil => simp [signature_as_expected, spec_expected_shape]
    | cons y tl2 =>
      cases tl2 with
      | cons z tl3 => simp [signature_as_expected, spec_expected_shape]
      | nil =>
        simp only [signature_as_expected, Bool.and_eq_true,
          argument_of_expected_type_iff, output_of_expected_type_iff,
          spec_expected_shape, List.cons.injEq, and_true]
        constructor
        · rintro ⟨⟨⟨p1, t1, rfl, hn1⟩, p2, t2, rfl, hn2⟩, t3, h3, hn3⟩
          exact ⟨⟨p1, t1, p2, t2, ⟨rfl, rfl⟩, hn1, hn2⟩, t3, h3, hn3⟩
        · rintro ⟨⟨p1, t1, p2, t2, ⟨rfl, rfl⟩, hn1, hn2⟩, t3, h3, hn3⟩
          exact ⟨⟨⟨p1, t1, rfl, hn1⟩, p2, t2, rfl, hn2⟩, t3, h3, hn3⟩

/-- C5: proc_macro_attribute2's implement succeeds (emits code) exactly
when the wrapped function's signature has exactly two parameters whose
types are named AttributeArgs and TokenStream2, in that order, and a
return type named TokenStream2; on any other signature it panics. -/
theorem implement_succeeds_iff_expected_signature_shape (item_func : ItemFn) :
    ((∃ ts, implement item_func = .ok ts) ↔ spec_expected_shape item_func.sig) ∧
    (¬ spec_expected_shape item_func.sig →
      implement item_func =
        .error "testable_proc_macro_attribute is only applicable on functions of type (AttributeArgs, TokenStream2) -> TokenStream2") := by
  constructor
  · rw [← signature_as_expected_iff]
    unfold implement
    by_cases h : signature_as_expected item_func.sig <;> simp [h]
  · intro hns
    rw [← signature_as_expected_iff] at hns
    unfold implement
    simp [hns]

/-- C6: on a function of the required shape, implement emits the
#[proc_macro_attribute] entry point of the same name (from and to
proc_macro::TokenStream, delegating to implementation::name) followed by
the public implementation module holding a public function with the
original name, parameters, return type and body. -/
theorem implement_emits_entry_point_and_implementation_module
    (item_func : ItemFn)
    (h : signature_as_expected item_func.sig = true) :
    implement item_func =
      .ok (entry_point_tokens item_func.sig.ident ++
        implementation_module_tokens item_func.sig.ident
          (params_tokens item_func.sig.inputs)
          (output_tokens item_func.sig.output)
          item_func.block) := by
  unfold implement
  simp [h, entry_point_tokens, implementation_module_tokens]

/-!
Concrete fixtures, taken from the crate's own test `tests::foo`:
the item `#[bar] struct S { foo: usize, }`, the expected block
`struct S { foo: usize, }`, and the wrapped function
`pub fn bar(_attr: AttributeArgs, item: TokenStream2) -> TokenStream2`.
-/

/-- The item of the crate's own test: `#[bar] struct S ...`. -/
def test_item : Item :=
  ⟨ItemKind.structItem, [⟨["bar"], Meta.path⟩],
    ["struct", "S", "\x7b", "foo", ":", "usize", ",", "\x7d"]⟩

/-- The expected block of the crate's own test: the struct without the
annotation. -/
def test_expected : List String :=
  ["struct", "S", "\x7b", "foo", ":", "usize", ",", "\x7d"]

/-- The wrapped function of the crate's own test module. -/
def bar_item_fn : ItemFn :=
  ⟨⟨"bar",
    [FnArg.typed "_attr" (Ty.path ["AttributeArgs"]),
     FnArg.typed "item" (Ty.path ["TokenStream2"])],
    ReturnType.type (Ty.path ["TokenStream2"])⟩,
   ["item"]⟩

/-- Witness for C1 at the crate's own test input. -/
theorem identity_rewrite_succeeds_iff_expected_matches_stripped_witness :
    assert_attribute_implementation_as_expected (fun _ ts => ts) "bar"
      test_item test_expected = .ok () := by
  have h := identity_rewrite_succeeds_iff_expected_matches_stripped
    test_item [] [] ⟨["bar"], Meta.path⟩ "bar" test_expected
    (by decide) rfl (by simp) rfl
  exact h.2

/-- Witness for C2: a produced stream different from the expected one
makes the assertion panic. -/
theorem assert_panics_iff_whitespace_stripped_strings_differ_witness :
    assert_attribute_implementation_as_expected (fun _ _ => ["x"]) "bar"
      test_item ["y"] = .error "assertion failed" := by
  have h := assert_panics_iff_whitespace_stripped_strings_differ
    (fun _ _ => ["x"]) "bar" test_item ["y"] ⟨["bar"], Meta.path⟩
    ⟨ItemKind.structItem, [],
      ["struct", "S", "\x7b", "foo", ":", "usize", ",", "\x7d"]⟩
    (by rfl)
  exact h.1.mpr (by decide)

/-- Witness for C3 at the crate's own test input. -/
theorem rewrite_function_receives_args_and_stripped_item_witness :
    assert_attribute_implementation_as_expected (fun _ ts => ts) "bar"
      test_item test_expected =
      (if remove_whitespace (ts_to_string ((fun _ ts => ts)
            (attr_args ⟨["bar"], Meta.path⟩)
            (item_tokens { test_item with attrs := ([] : List Attribute) ++ [] })))
          == remove_whitespace (ts_to_string test_expected)
        then .ok () else .error "assertion failed") :=
  rewrite_function_receives_args_and_stripped_item (fun _ ts => ts) "bar"
    test_item [] [] ⟨["bar"], Meta.path⟩ test_expected
    (by decide) rfl (by simp) rfl

/-- Witness for C4: an item annotated only with `#[baz]` makes the
lookup for `bar` panic. -/
theorem lookup_panics_iff_no_matching_attribute_witness :
    assert_attribute_implementation_as_expected (fun _ ts => ts) "bar"
      ⟨ItemKind.structItem, [⟨["baz"], Meta.path⟩], ["struct", "S", ";"]⟩ [] =
      .error "Could not find expected attribute" := by
  have h := lookup_panics_iff_no_matching_attribute
    ⟨ItemKind.structItem, [⟨["baz"], Meta.path⟩], ["struct", "S", ";"]⟩ "bar"
    (by decide) (by decide)
  refine h.1 ?_ (fun _ ts => ts) []
  intro b hb
  simp at hb
  subst hb
  exact ⟨"baz", rfl, by decide⟩

/-- Witness for C5: the crate's own test function has the required shape
and implement emits code for it. -/
theorem implement_succeeds_iff_expected_signature_shape_witness :
    ∃ ts, implement bar_item_fn = .ok ts :=
  (implement_succeeds_iff_expected_signature_shape bar_item_fn).1.mpr
    ⟨⟨"_attr", Ty.path ["AttributeArgs"], "item", Ty.path ["TokenStream2"],
      rfl, ⟨["AttributeArgs"], rfl, rfl⟩, ⟨["TokenStream2"], rfl, rfl⟩⟩,
     ⟨Ty.path ["TokenStream2"], rfl, ⟨["TokenStream2"], rfl, rfl⟩⟩⟩

/-- Witness for C6 at the crate's own test function. -/
theorem implement_emits_entry_point_and_implementation_module_witness :
    implement bar_item_fn =
      .ok (entry_point_tokens "bar" ++
        implementation_module_tokens "bar"
          (params_tokens bar_item_fn.sig.inputs)
          (output_tokens bar_item_fn.sig.output)
          bar_item_fn.block) :=
  implement_emits_entry_point_and_implementation_module bar_item_fn rfl

/-- Witness for C10: of three annotations, two of which match `bar`
(one through a qualified path), exactly the first matching one is
removed. -/
theorem extract_removes_exactly_first_matching_attribute_witness :
    extract_attribute
      ⟨ItemKind.fnItem,
        [⟨["baz"], Meta.path⟩, ⟨["bar"], Meta.path⟩,
         ⟨["xyz", "bar"], Meta.list ["a"]⟩],
        ["fn", "f", "(", ")", "\x7b", "\x7d"]⟩ "bar" =
      .ok (⟨["bar"], Meta.path⟩,
        ⟨ItemKind.fnItem,
          [⟨["baz"], Meta.path⟩, ⟨["xyz", "bar"], Meta.list ["a"]⟩],
          ["fn", "f", "(", ")", "\x7b", "\x7d"]⟩) := by
  have h := extract_removes_exactly_first_matching_attribute
    ⟨ItemKind.fnItem,
      [⟨["baz"], Meta.path⟩, ⟨["bar"], Meta.path⟩,
       ⟨["xyz", "bar"], Meta.list ["a"]⟩],
      ["fn", "f", "(", ")", "\x7b", "\x7d"]⟩
    [⟨["baz"], Meta.path⟩] [⟨["xyz", "bar"], Meta.list ["a"]⟩]
    ⟨["bar"], Meta.path⟩ "bar" (by decide) rfl ?_ rfl
  · exact h
  · intro b hb
    simp at hb
    subst hb
    exact ⟨"baz", rfl, by decide⟩

end MacroTest
